import Mathlib

/-!
Verification of the SSD1309/SSD1306 monochrome OLED driver (`ssd1309.py`).

The development shallowly embeds the driver's byte-buffer algorithms
(`get_byte_size`, `xform_buf`, `mirror_horizontal`, `buf_hmsb_to_vlsb`),
its wire protocol (`write_cmd`, `write_data`, `present_buf`) and its
graphics layer (`is_off_grid`, `draw_pixel`, `draw_hline`, `draw_vline`,
`draw_line`, `draw_rectangle`, `fill_rectangle`, `draw_sprite`,
`draw_text8x8`, `draw_circle`, `fill_circle`).

Conventions of the embedding:
* Python `bytearray`s become `List Nat` (each element a byte value).
* Python's `x >> 3` and `x & 7` on non-negative ints are written `x / 8`
  and `x % 8`.
* `buf2[i] |= v` becomes `orWrite` (`List.set` at an index that is always
  in range in the embedded loops).
* Pixel coordinates are `Int` (Python ints may be negative, and the
  bounds check `is_off_grid` must see negative values).
* The external MicroPython `framebuf.FrameBuffer` (an out-of-scope
  collaborator of the driver) is modelled at the pixel level as a
  function `Int → Int → Bool` together with the canvas dimensions; its
  operations clip each write to `[0,width) × [0,height)`, which is the
  documented behaviour of the `framebuf` module.
* `print` reports inside `is_off_grid` are modelled by the `Bool` the
  drawing entry points return alongside the new display state.
-/

/-- Python `get_byte_size(width) = ((width - 1) >> 3) + 1`.
For `width = 0` Python computes `(-1 >> 3) + 1 = 0` (arithmetic shift),
hence the explicit zero case; for `width ≥ 1` it is `⌈width/8⌉`. -/
def get_byte_size (width : Nat) : Nat :=
  if width = 0 then 0 else (width - 1) / 8 + 1

/-- One Python statement `buf[i] |= v` on a bytearray. -/
def orWrite (b : List Nat) (i v : Nat) : List Nat :=
  b.set i (b.getD i 0 ||| v)

/-- A sequence of `buf[i] |= v` statements, applied in order. -/
def orWrites (b : List Nat) (ws : List (Nat × Nat)) : List Nat :=
  ws.foldl (fun acc iv => orWrite acc iv.1 iv.2) b

/-- Read one pixel of a row-major (MONO_HMSB-style) packed buffer whose
rows are `wBytes` bytes wide: bit `x % 8` of byte `y * wBytes + x / 8`.
This is the packing the driver's loops read with
`(buf[(y * w_bytes) + (x >> 3)] >> (x & 7)) & 1`. -/
def getPix (buf : List Nat) (wBytes x y : Nat) : Bool :=
  (buf.getD (y * wBytes + x / 8) 0).testBit (x % 8)

namespace Display

/-- Addressing command constant `COLUMN_ADDRESS = 0x21`. -/
def COLUMN_ADDRESS : Nat := 0x21

/-- Addressing command constant `PAGE_ADDRESS = 0x22`. -/
def PAGE_ADDRESS : Nat := 0x22

/-- The possible Python values flowing into `Display.write_data`:
a `bytearray`, a single `int`, or the `*args` tuple forwarded verbatim
by `write_cmd`. -/
inductive PyBytes where
  | bytearray (l : List Nat) : PyBytes
  | int (b : Nat) : PyBytes
  | tuple (l : List Nat) : PyBytes

/-- Embedding of `Display.write_data(data)`: if `data` is a `bytearray` the driver
issues one I2C write `bytearray([0x40]) + data`; otherwise it attempts
`bytearray([0x40, data])`, which succeeds only when `data` is an int and
raises `TypeError` when `data` is a tuple (a tuple is not an integer).
The result is the payload of the single I2C write, or the raised error. -/
def write_data : PyBytes → Except String (List Nat)
  | .bytearray l => .ok (0x40 :: l)
  | .int b => .ok [0x40, b]
  | .tuple _ => .error "TypeError"

/-- Embedding of `Display.write_cmd(command, *args)`: first writes
`bytearray([0x80, command])`; then, if `args` is non-empty, calls
`write_data(args)` with the tuple `args`.  Returns the list of I2C write
payloads actually transmitted, paired with the error raised by the call
(if any). -/
def write_cmd (command : Nat) (args : List Nat) : List (List Nat) × Option String :=
  let trace := [[0x80, command]]
  if 0 < args.length then
    match write_data (.tuple args) with
    | .ok p => (trace ++ [p], none)
    | .error e => (trace, some e)
  else (trace, none)

/-- Embedding of `Display.present_buf(buf, w, h)`: six single-byte commands (column
address window, page address window) followed by one data transfer of
the whole buffer.  Returns the list of I2C write payloads. -/
def present_buf (buf : List Nat) (w h : Nat) : List (List Nat) :=
  let column_beg : Nat := 0
  let column_end : Nat := w - 1
  -- displays with width of 64 pixels are shifted by 32
  let column_beg := if w = 64 then column_beg + 32 else column_beg
  let column_end := if w = 64 then column_end + 32 else column_end
  let pages_beg : Nat := 0
  let pages_end : Nat := h / 8 - 1
  (write_cmd COLUMN_ADDRESS []).1 ++ (write_cmd column_beg []).1
    ++ (write_cmd column_end []).1 ++ (write_cmd PAGE_ADDRESS []).1
    ++ (write_cmd pages_beg []).1 ++ (write_cmd pages_end []).1
    ++ (match write_data (.bytearray buf) with | .ok p => [p] | .error _ => [])

/-- The inner loop of the 180-degree branch of `xform_buf`: reverse the
bit order within one byte (`for i in range(8): new <<= 1; new |= cur & 1;
cur >>= 1`). -/
def bit_reverse8 (b : Nat) : Nat :=
  ((List.range 8).foldl (fun p _ => (p.1 <<< 1 ||| (p.2 &&& 1), p.2 >>> 1)) (0, b)).1

/-- The 90-degree branch of `xform_buf`: destination `(y2, x2) = (x1,
(h-1)-y1)`, a zero-initialised scatter of size `h_bytes * w`. -/
def rot90core (buf : List Nat) (w h : Nat) : List Nat :=
  (List.range h).foldl (fun b2 y1 =>
    (List.range w).foldl (fun b2 x1 =>
      orWrite b2 (x1 * get_byte_size h + ((h - 1) - y1) / 8)
        ((((buf.getD (y1 * get_byte_size w + x1 / 8) 0) >>> (x1 % 8)) &&& 1)
          <<< (((h - 1) - y1) % 8))) b2)
    (List.replicate (get_byte_size h * w) 0)

/-- The 270-degree branch of `xform_buf`: destination `(y2, x2) =
((w-1)-x1, y1)`. -/
def rot270core (buf : List Nat) (w h : Nat) : List Nat :=
  (List.range h).foldl (fun b2 y1 =>
    (List.range w).foldl (fun b2 x1 =>
      orWrite b2 (((w - 1) - x1) * get_byte_size h + y1 / 8)
        ((((buf.getD (y1 * get_byte_size w + x1 / 8) 0) >>> (x1 % 8)) &&& 1)
          <<< (y1 % 8))) b2)
    (List.replicate (get_byte_size h * w) 0)

/-- Embedding of `Display.xform_buf(buf, w, h, invert, rotate)`.  Inversion XORs every
byte; rotate 180 reverses the byte order and the bit order within each
byte (the source writes `buf2[buf_len-1-idx] = reverse_bits(buf[idx])`,
i.e. the reversal of the byte-wise bit-reversed buffer); rotate 90/270
scatter into a fresh `h_bytes * w` buffer and swap the dimensions. -/
def xform_buf (buf : List Nat) (w h : Nat) (invert : Bool) (rotate : Nat) :
    List Nat × Nat × Nat :=
  let buf := if invert then buf.map (fun b => b ^^^ 0xFF) else buf
  if rotate = 180 then
    ((buf.map bit_reverse8).reverse, w, h)
  else if rotate = 90 then
    (rot90core buf w h, h, w)
  else if rotate = 270 then
    (rot270core buf w h, h, w)
  else
    (buf, w, h)

/-- Embedding of `Display.mirror_horizontal(buf, w, h)`: for `x1 < w / 2` copy pixel
`x1` of each row to `(w-1)-x1` of a fresh zeroed buffer and vice versa.
(The loop bound is `w // 2`, so for odd `w` the centre column is never
written.) -/
def mirror_horizontal (buf : List Nat) (w h : Nat) : List Nat :=
  (List.range h).foldl (fun b2 y1 =>
    (List.range (w / 2)).foldl (fun b2 x1 =>
      let x2 := (w - 1) - x1
      let src_idx := y1 * get_byte_size w + x1 / 8
      let src_bit := x1 % 8
      let dst_idx := y1 * get_byte_size w + x2 / 8
      let dst_bit := x2 % 8
      let b2 := orWrite b2 dst_idx
        (((buf.getD src_idx 0 >>> src_bit) &&& 1) <<< dst_bit)
      orWrite b2 src_idx
        (((buf.getD dst_idx 0 >>> dst_bit) &&& 1) <<< src_bit)) b2)
    (List.replicate (get_byte_size w * h) 0)

/-- Embedding of `Display.buf_hmsb_to_vlsb(buf, w, h)`: row-major (HMSB) to page-major
(VLSB) repacking; destination byte `page * w + x1`, destination bit
`y1 % 8`, scattered into a fresh `h_bytes * w` buffer. -/
def buf_hmsb_to_vlsb (buf : List Nat) (w h : Nat) : List Nat :=
  (List.range h).foldl (fun b2 y1 =>
    let page := y1 / 8
    (List.range w).foldl (fun b2 x1 =>
      orWrite b2 (page * w + x1)
        ((((buf.getD (y1 * get_byte_size w + x1 / 8) 0) >>> (x1 % 8)) &&& 1)
          <<< (y1 % 8))) b2)
    (List.replicate (get_byte_size h * w) 0)

end Display

/-- The drawable state of a `Display`: the canvas dimensions and the
current frame, the latter modelled at the pixel level (the external
`framebuf.FrameBuffer` backing `self.monoFB`). -/
structure DisplayState where
  width : Int
  height : Int
  frame : Int → Int → Bool

/-- A display whose frame buffer has just been cleared
(`clear_buffers`, `monoFB.fill(0x00)`). -/
def blank_display (w h : Int) : DisplayState :=
  ⟨w, h, fun _ _ => false⟩

/-- A sprite (`FrameBuffer` argument of `draw_sprite`), at pixel level. -/
structure Sprite where
  w : Int
  h : Int
  pix : Int → Int → Bool

/-- Modelled from the spec: the external MicroPython
`FrameBuffer.pixel(x, y, c)` write, a no-op when `(x, y)` is outside
`[0,width) × [0,height)` (the PixelBuffer pixel-set primitive of §2). -/
def fb_pixel_set (d : DisplayState) (x y : Int) (c : Bool) : DisplayState :=
  if 0 ≤ x ∧ x < d.width ∧ 0 ≤ y ∧ y < d.height then
    { d with frame := fun px py => if px = x ∧ py = y then c else d.frame px py }
  else d

/-- Modelled from the spec: the external `FrameBuffer.fill_rect`, which
clips the rectangle `[x, x+w) × [y, y+h)` to the canvas and writes `c`
to every remaining pixel. -/
def fb_fill_rect (d : DisplayState) (x y w h : Int) (c : Bool) : DisplayState :=
  { d with frame := fun px py =>
      if x ≤ px ∧ px < x + w ∧ y ≤ py ∧ py < y + h ∧
          0 ≤ px ∧ px < d.width ∧ 0 ≤ py ∧ py < d.height
      then c else d.frame px py }

/-- Modelled from the spec: `FrameBuffer.hline` is `fill_rect` of height 1. -/
def fb_hline (d : DisplayState) (x y w : Int) (c : Bool) : DisplayState :=
  fb_fill_rect d x y w 1 c

/-- Modelled from the spec: `FrameBuffer.vline` is `fill_rect` of width 1. -/
def fb_vline (d : DisplayState) (x y h : Int) (c : Bool) : DisplayState :=
  fb_fill_rect d x y 1 h c

/-- Modelled from the spec: `FrameBuffer.rect` draws the outline as four
clipped `fill_rect` strips (top, bottom, left, right edges). -/
def fb_rect (d : DisplayState) (x y w h : Int) (c : Bool) : DisplayState :=
  let d := fb_fill_rect d x y w 1 c
  let d := fb_fill_rect d x (y + h - 1) w 1 c
  let d := fb_fill_rect d x y 1 h c
  fb_fill_rect d (x + w - 1) y 1 h c

/-- The inner `while (e >= 0)` error-correction step of the external
`FrameBuffer.line` Bresenham loop (`y1 += sy; e -= 2*dx` while `e ≥ 0`).
The `0 < dxa` guard only makes explicit what holds at every reachable
call (the outer loop runs `dxa` times, so `dxa ≥ 1` inside it). -/
def line_adjust (dxa sy y1 e : Int) : Int × Int :=
  if 0 ≤ e ∧ 0 < dxa then line_adjust dxa sy (y1 + sy) (e - 2 * dxa)
  else (y1, e)
termination_by (e + 1).toNat
decreasing_by omega

/-- Modelled from the spec: the pixel-plotting loop of the external
`FrameBuffer.line` (integer Bresenham stepping, §4.2), `n` remaining
steps. -/
def fb_line_loop (c steep : Bool) (dxa dya sx sy : Int) :
    Nat → DisplayState → Int → Int → Int → DisplayState
  | 0, d, _, _, _ => d
  | n + 1, d, x1, y1, e =>
    let d := if steep then fb_pixel_set d y1 x1 c else fb_pixel_set d x1 y1 c
    let adj := line_adjust dxa sy y1 e
    fb_line_loop c steep dxa dya sx sy n d (x1 + sx) adj.1 (adj.2 + 2 * dya)

/-- Modelled from the spec: the external `FrameBuffer.line` (integer
Bresenham, both endpoints inclusive, every pixel write clipped). -/
def fb_line (d : DisplayState) (x1 y1 x2 y2 : Int) (c : Bool) : DisplayState :=
  let dx0 := x2 - x1
  let sx : Int := if 0 < dx0 then 1 else -1
  let dxa := if 0 < dx0 then dx0 else -dx0
  let dy0 := y2 - y1
  let sy : Int := if 0 < dy0 then 1 else -1
  let dya := if 0 < dy0 then dy0 else -dy0
  let steep := dxa < dya
  let st := if steep then (dya, dxa, y1, x1, sy, sx) else (dxa, dya, x1, y1, sx, sy)
  let e := 2 * st.2.1 - st.1
  let d := fb_line_loop c steep st.1 st.2.1 st.2.2.2.2.1 st.2.2.2.2.2
    st.1.toNat d st.2.2.1 st.2.2.2.1 e
  fb_pixel_set d x2 y2 c

/-- Modelled from the spec: the external `FrameBuffer.blit` without a
transparency key — every destination pixel in the clipped footprint is
overwritten by the corresponding sprite pixel. -/
def fb_blit (d : DisplayState) (s : Sprite) (x y : Int) : DisplayState :=
  { d with frame := fun px py =>
      if 0 ≤ px ∧ px < d.width ∧ 0 ≤ py ∧ py < d.height ∧
          x ≤ px ∧ px < x + s.w ∧ y ≤ py ∧ py < y + s.h
      then s.pix (px - x) (py - y) else d.frame px py }

/-- Modelled from the spec: the external `FrameBuffer.text` with the
built-in 8x8 font.  The ROM font bitmap is outside the repository, so it
is a parameter `font`; character `i` of the string occupies the cell
`[x + 8*i, x + 8*i + 8) × [y, y + 8)`, and only the glyph's lit bits are
written (each write clipped to the canvas). -/
def fb_text8x8 (font : Char → Nat → Nat → Bool) (d0 : DisplayState)
    (s : List Char) (x y : Int) : DisplayState :=
  (List.range s.length).foldl (fun d i =>
    (List.range 8).foldl (fun d gx =>
      (List.range 8).foldl (fun d gy =>
        if font (s.getD i ' ') gx gy then
          fb_pixel_set d (x + 8 * (i : Int) + (gx : Int)) (y + (gy : Int)) true
        else d) d) d) d0

namespace Display

/-- Embedding of `Display.is_off_grid(xmin, ymin, xmax, ymax)`: `True` (after a
printed report) as soon as one bound leaves `[0,width) × [0,height)`. -/
def is_off_grid (d : DisplayState) (xmin ymin xmax ymax : Int) : Bool :=
  if xmin < 0 then true
  else if ymin < 0 then true
  else if d.width ≤ xmax then true
  else if d.height ≤ ymax then true
  else false

/-- Embedding of `Display.draw_pixel(x, y, invert)`.  The second component records
whether the call was rejected (and reported) as off-grid. -/
def draw_pixel (d : DisplayState) (x y : Int) (invert : Bool) :
    DisplayState × Bool :=
  if is_off_grid d x y x y then (d, true)
  else (fb_pixel_set d x y (!invert), false)

/-- Embedding of `Display.draw_hline(x, y, w, invert)`. -/
def draw_hline (d : DisplayState) (x y w : Int) (invert : Bool) :
    DisplayState × Bool :=
  if is_off_grid d x y (x + w - 1) y then (d, true)
  else (fb_hline d x y w (!invert), false)

/-- Embedding of `Display.draw_vline(x, y, h, invert)`.  Note the source checks
`is_off_grid(x, y, x, y + h)` — one row past the last drawn pixel. -/
def draw_vline (d : DisplayState) (x y h : Int) (invert : Bool) :
    DisplayState × Bool :=
  if is_off_grid d x y x (y + h) then (d, true)
  else (fb_vline d x y h (!invert), false)

/-- Embedding of `Display.draw_line(x1, y1, x2, y2, invert)`: horizontal and vertical
lines are special-cased to `draw_hline`/`draw_vline`; otherwise the
bounding box is checked and the external Bresenham is used. -/
def draw_line (d : DisplayState) (x1 y1 x2 y2 : Int) (invert : Bool) :
    DisplayState × Bool :=
  if y1 = y2 then
    let p := if x2 < x1 then (x2, x1) else (x1, x2)
    draw_hline d p.1 y1 (p.2 - p.1 + 1) invert
  else if x1 = x2 then
    let p := if y2 < y1 then (y2, y1) else (y1, y2)
    draw_vline d x1 p.1 (p.2 - p.1 + 1) invert
  else if is_off_grid d (min x1 x2) (min y1 y2) (max x1 x2) (max y1 y2) then
    (d, true)
  else (fb_line d x1 y1 x2 y2 (!invert), false)

/-- Embedding of `Display.draw_rectangle(x, y, w, h, invert)`: no bounds check at all
— the call goes straight to `FrameBuffer.rect`, and nothing is ever
reported. -/
def draw_rectangle (d : DisplayState) (x y w h : Int) (invert : Bool) :
    DisplayState × Bool :=
  (fb_rect d x y w h (!invert), false)

/-- Embedding of `Display.fill_rectangle(x, y, w, h, invert)`. -/
def fill_rectangle (d : DisplayState) (x y w h : Int) (invert : Bool) :
    DisplayState × Bool :=
  if is_off_grid d x y (x + w - 1) (y + h - 1) then (d, true)
  else (fb_fill_rect d x y w h (!invert), false)

/-- Embedding of `Display.draw_sprite(fbuf, x, y, w, h)`. -/
def draw_sprite (d : DisplayState) (fbuf : Sprite) (x y w h : Int) :
    DisplayState × Bool :=
  if is_off_grid d x y (x + w - 1) (y + h - 1) then (d, true)
  else (fb_blit d fbuf x y, false)

/-- Embedding of `Display.draw_text8x8(x, y, text)`: checks
`is_off_grid(x, y, x + 8, y + 8)` (only the first glyph cell, one past
its last pixel), then delegates to the external `FrameBuffer.text`. -/
def draw_text8x8 (font : Char → Nat → Nat → Bool) (d : DisplayState)
    (s : List Char) (x y : Int) : DisplayState × Bool :=
  if is_off_grid d x y (x + 8) (y + 8) then (d, true)
  else (fb_text8x8 font d s x y, false)

/-- The `while x < y` loop of `Display.draw_circle` (midpoint circle
algorithm), plotting all eight symmetric points each iteration. -/
def circle_loop (d : DisplayState) (x0 y0 : Int) (invert : Bool)
    (f dx dy x y : Int) : DisplayState :=
  if x < y then
    let f' := if 0 ≤ f then f + dy + 2 else f
    let dy' := if 0 ≤ f then dy + 2 else dy
    let y' := if 0 ≤ f then y - 1 else y
    let x' := x + 1
    let dx' := dx + 2
    let f'' := f' + dx'
    let d := (draw_pixel d (x0 + x') (y0 + y') invert).1
    let d := (draw_pixel d (x0 - x') (y0 + y') invert).1
    let d := (draw_pixel d (x0 + x') (y0 - y') invert).1
    let d := (draw_pixel d (x0 - x') (y0 - y') invert).1
    let d := (draw_pixel d (x0 + y') (y0 + x') invert).1
    let d := (draw_pixel d (x0 - y') (y0 + x') invert).1
    let d := (draw_pixel d (x0 + y') (y0 - x') invert).1
    let d := (draw_pixel d (x0 - y') (y0 - x') invert).1
    circle_loop d x0 y0 invert f'' dx' dy' x' y'
  else d
termination_by (y - x).toNat
decreasing_by
  split <;> omega

/-- Embedding of `Display.draw_circle(x0, y0, r, invert)`: the four cardinal points,
then the midpoint loop starting from `f = 1 - r`, `dx = 1`,
`dy = -r - r`, `x = 0`, `y = r`. -/
def draw_circle (d : DisplayState) (x0 y0 r : Int) (invert : Bool) :
    DisplayState :=
  let d := (draw_pixel d x0 (y0 + r) invert).1
  let d := (draw_pixel d x0 (y0 - r) invert).1
  let d := (draw_pixel d (x0 + r) y0 invert).1
  let d := (draw_pixel d (x0 - r) y0 invert).1
  circle_loop d x0 y0 invert (1 - r) 1 (-r - r) 0 r

/-- The `while x < y` loop of `Display.fill_circle`, drawing four
vertical spans each iteration. -/
def fill_circle_loop (d : DisplayState) (x0 y0 : Int) (invert : Bool)
    (f dx dy x y : Int) : DisplayState :=
  if x < y then
    let f' := if 0 ≤ f then f + dy + 2 else f
    let dy' := if 0 ≤ f then dy + 2 else dy
    let y' := if 0 ≤ f then y - 1 else y
    let x' := x + 1
    let dx' := dx + 2
    let f'' := f' + dx'
    let d := (draw_vline d (x0 + x') (y0 - y') (2 * y' + 1) invert).1
    let d := (draw_vline d (x0 - x') (y0 - y') (2 * y' + 1) invert).1
    let d := (draw_vline d (x0 - y') (y0 - x') (2 * x' + 1) invert).1
    let d := (draw_vline d (x0 + y') (y0 - x') (2 * x' + 1) invert).1
    fill_circle_loop d x0 y0 invert f'' dx' dy' x' y'
  else d
termination_by (y - x).toNat
decreasing_by
  split <;> omega

/-- Embedding of `Display.fill_circle(x0, y0, r, invert)`: the central vertical span,
then the midpoint loop. -/
def fill_circle (d : DisplayState) (x0 y0 r : Int) (invert : Bool) :
    DisplayState :=
  let d := (draw_vline d x0 (y0 - r) (2 * r + 1) invert).1
  fill_circle_loop d x0 y0 invert (1 - r) 1 (-r - r) 0 r

end Display

/-- Eight-fold dihedral symmetry of a frame about the centre `(x0, y0)`:
closure under negating the horizontal offset, negating the vertical
offset, and swapping the two offsets.  These three reflections generate
all eight symmetries of the claim. -/
def SymAbout (x0 y0 : Int) (fr : Int → Int → Bool) : Prop :=
  ∀ a b : Int,
    fr (x0 + a) (y0 + b) = fr (x0 - a) (y0 + b) ∧
    fr (x0 + a) (y0 + b) = fr (x0 + a) (y0 - b) ∧
    fr (x0 + a) (y0 + b) = fr (x0 + b) (y0 + a)

section BufferLemmas

/-! Generic facts about `orWrite`/`orWrites`: the final value of bit `j`
of byte `i` after a scatter is the OR of the initial bit and every
written value's bit `j` aimed at index `i`. -/

theorem getD_set_self (b : List Nat) (i v : Nat) (h : i < b.length) :
    (b.set i v).getD i 0 = v := by
  rw [List.getD_eq_getElem?_getD, List.getElem?_set_self h]
  rfl

theorem getD_set_ne (b : List Nat) {i j : Nat} (v : Nat) (h : i ≠ j) :
    (b.set i v).getD j 0 = b.getD j 0 := by
  rw [List.getD_eq_getElem?_getD, List.getElem?_set_ne h,
    ← List.getD_eq_getElem?_getD]

theorem getD_replicate_zero (n i : Nat) :
    (List.replicate n (0 : Nat)).getD i 0 = 0 := by
  rw [List.getD_eq_getElem?_getD, List.getElem?_replicate]
  split <;> rfl

theorem length_orWrites (ws : List (Nat × Nat)) (b : List Nat) :
    (orWrites b ws).length = b.length := by
  induction ws generalizing b with
  | nil => rfl
  | cons hd tl ih =>
    show (orWrites (orWrite b hd.1 hd.2) tl).length = b.length
    rw [ih, orWrite, List.length_set]

theorem testBit_orWrites (ws : List (Nat × Nat)) (b : List Nat) (i j : Nat)
    (hi : i < b.length) :
    ((orWrites b ws).getD i 0).testBit j = true ↔
      ((b.getD i 0).testBit j = true ∨
        ∃ iv ∈ ws, iv.1 = i ∧ iv.2.testBit j = true) := by
  induction ws generalizing b with
  | nil => simp [orWrites]
  | cons hd tl ih =>
    have hstep : orWrites b (hd :: tl) = orWrites (orWrite b hd.1 hd.2) tl := rfl
    have hlen : (orWrite b hd.1 hd.2).length = b.length := List.length_set b hd.1 _
    rw [hstep, ih _ (by rw [hlen]; exact hi)]
    by_cases hcase : hd.1 = i
    · subst hcase
      rw [orWrite, getD_set_self b hd.1 _ hi]
      simp only [Nat.testBit_or, Bool.or_eq_true, List.mem_cons]
      constructor
      · rintro ((hb | hv) | ⟨iv, hm, h1, h2⟩)
        · exact Or.inl hb
        · exact Or.inr ⟨hd, Or.inl rfl, rfl, hv⟩
        · exact Or.inr ⟨iv, Or.inr hm, h1, h2⟩
      · rintro (hb | ⟨iv, (rfl | hm), h1, h2⟩)
        · exact Or.inl (Or.inl hb)
        · exact Or.inl (Or.inr h2)
        · exact Or.inr ⟨iv, hm, h1, h2⟩
    · rw [orWrite, getD_set_ne b _ hcase]
      simp only [List.mem_cons]
      constructor
      · rintro (hb | ⟨iv, hm, h1, h2⟩)
        · exact Or.inl hb
        · exact Or.inr ⟨iv, Or.inr hm, h1, h2⟩
      · rintro (hb | ⟨iv, (rfl | hm), h1, h2⟩)
        · exact Or.inl hb
        · exact absurd h1 hcase
        · exact Or.inr ⟨iv, hm, h1, h2⟩

theorem orWrites_append (b : List Nat) (A B : List (Nat × Nat)) :
    orWrites b (A ++ B) = orWrites (orWrites b A) B :=
  List.foldl_append _ _ _ _

theorem nested_foldl_orWrites (g : Nat → Nat → Nat × Nat) (w h : Nat)
    (b : List Nat) :
    (List.range h).foldl (fun acc y1 =>
        (List.range w).foldl
          (fun acc2 x1 => orWrite acc2 (g x1 y1).1 (g x1 y1).2) acc) b
      = orWrites b
          ((List.range h).flatMap fun y1 =>
            (List.range w).map fun x1 => g x1 y1) := by
  induction h with
  | zero => simp [orWrites]
  | succ n ih =>
    rw [List.range_succ, List.foldl_append, List.flatMap_append, orWrites_append,
      ← ih, List.flatMap_cons, List.flatMap_nil, List.append_nil]
    show (List.range w).foldl _ _ = orWrites _ ((List.range w).map fun x1 => g x1 n)
    rw [orWrites, List.foldl_map]

theorem mem_scatter_pairs {g : Nat → Nat → Nat × Nat} {w h : Nat}
    {iv : Nat × Nat} :
    (iv ∈ (List.range h).flatMap fun y1 => (List.range w).map fun x1 => g x1 y1)
      ↔ ∃ y1 < h, ∃ x1 < w, g x1 y1 = iv := by
  simp only [List.mem_flatMap, List.mem_map, List.mem_range]

/-- Bit `j` of the value `((s >> sb) & 1) << db` written by the scatter
loops: it is the source bit `s.testBit sb` when `j = db`, else `0`. -/
theorem testBit_scatter_val (s sb db j : Nat) :
    ((((s >>> sb) &&& 1) <<< db).testBit j) = true ↔
      (j = db ∧ s.testBit sb = true) := by
  have hc : (s >>> sb) &&& 1 = if s.testBit sb then 1 else 0 := by
    rw [Nat.and_one_is_mod, Nat.testBit_to_div_mod, Nat.shiftRight_eq_div_pow]
    rcases Nat.mod_two_eq_zero_or_one (s / 2 ^ sb) with h | h <;> simp [h]
  rw [hc]
  cases hsb : s.testBit sb
  · simp [Nat.zero_testBit]
  · rw [if_pos rfl, Nat.one_shiftLeft, Nat.testBit_two_pow]
    simp [eq_comm]

theorem mul_add_lt_inj {B a c b d : Nat} (hc : c < B) (hd : d < B)
    (h : a * B + c = b * B + d) : a = b ∧ c = d := by
  have hB : 0 < B := by omega
  have ha : (a * B + c) / B = a := by
    rw [Nat.mul_comm a B, Nat.mul_add_div hB, Nat.div_eq_of_lt hc, Nat.add_zero]
  have hb2 : (b * B + d) / B = b := by
    rw [Nat.mul_comm b B, Nat.mul_add_div hB, Nat.div_eq_of_lt hd, Nat.add_zero]
  have h1 : a = b := by rw [← ha, ← hb2, h]
  subst h1
  exact ⟨rfl, by omega⟩

theorem idx_lt {a b B n : Nat} (ha : a < n) (hb : b < B) :
    a * B + b < n * B := by
  calc a * B + b < a * B + B := by omega
    _ = (a + 1) * B := by ring
    _ ≤ n * B := Nat.mul_le_mul_right B (by omega)

theorem gbs_pos {w : Nat} (hw : 0 < w) : 0 < get_byte_size w := by
  unfold get_byte_size
  rw [if_neg (by omega)]
  omega

theorem le_8_gbs (w : Nat) : w ≤ 8 * get_byte_size w := by
  unfold get_byte_size
  split <;> omega

theorem div8_lt_gbs {k w : Nat} (h : k < w) : k / 8 < get_byte_size w := by
  unfold get_byte_size
  rw [if_neg (by omega)]
  omega

theorem exists_mem_scatter {g : Nat → Nat → Nat × Nat} {w h : Nat}
    {P : Nat × Nat → Prop} :
    (∃ iv ∈ (List.range h).flatMap fun y1 =>
        (List.range w).map fun x1 => g x1 y1, P iv)
      ↔ ∃ y1 < h, ∃ x1 < w, P (g x1 y1) := by
  constructor
  · rintro ⟨iv, hm, hp⟩
    obtain ⟨y1, hy, x1, hx, rfl⟩ := mem_scatter_pairs.mp hm
    exact ⟨y1, hy, x1, hx, hp⟩
  · rintro ⟨y1, hy, x1, hx, hp⟩
    exact ⟨g x1 y1, mem_scatter_pairs.mpr ⟨y1, hy, x1, hx, rfl⟩, hp⟩

end BufferLemmas

section RotateCharacterization

theorem rot90core_eq_orWrites (buf : List Nat) (w h : Nat) :
    Display.rot90core buf w h
      = orWrites (List.replicate (get_byte_size h * w) 0)
          ((List.range h).flatMap fun y1 => (List.range w).map fun x1 =>
            (x1 * get_byte_size h + ((h - 1) - y1) / 8,
              (((buf.getD (y1 * get_byte_size w + x1 / 8) 0) >>> (x1 % 8)) &&& 1)
                <<< (((h - 1) - y1) % 8))) :=
  nested_foldl_orWrites
    (fun x1 y1 =>
      (x1 * get_byte_size h + ((h - 1) - y1) / 8,
        (((buf.getD (y1 * get_byte_size w + x1 / 8) 0) >>> (x1 % 8)) &&& 1)
          <<< (((h - 1) - y1) % 8)))
    w h (List.replicate (get_byte_size h * w) 0)

theorem length_rot90core (buf : List Nat) (w h : Nat) :
    (Display.rot90core buf w h).length = get_byte_size h * w := by
  rw [rot90core_eq_orWrites, length_orWrites, List.length_replicate]

/-- Pixel-level behaviour of the 90-degree scatter: output pixel
`(x', y')` (in the rotated `h × w` geometry) is input pixel
`(y', (h-1) - x')`, and the padding columns `x' ≥ h` of the output are
all clear. -/
theorem getPix_rot90core (buf : List Nat) (w h x' y' : Nat) (hh : 0 < h)
    (hx : x' < 8 * get_byte_size h) (hy : y' < w) :
    getPix (Display.rot90core buf w h) (get_byte_size h) x' y'
      = if x' < h then getPix buf (get_byte_size w) y' (h - 1 - x') else false := by
  have hb0 : 0 < get_byte_size h := gbs_pos hh
  have hdiv : x' / 8 < get_byte_size h := by omega
  have hidx : y' * get_byte_size h + x' / 8 < get_byte_size h * w := by
    have := idx_lt (B := get_byte_size h) (n := w) hy hdiv
    calc y' * get_byte_size h + x' / 8 < w * get_byte_size h := this
      _ = get_byte_size h * w := Nat.mul_comm _ _
  simp only [getPix]
  rw [Bool.eq_iff_iff, rot90core_eq_orWrites,
    testBit_orWrites _ _ _ _ (by rw [List.length_replicate]; exact hidx),
    getD_replicate_zero]
  simp only [Nat.zero_testBit, Bool.false_eq_true, false_or, exists_mem_scatter,
    testBit_scatter_val]
  by_cases hxh : x' < h
  · rw [if_pos hxh]
    constructor
    · rintro ⟨y1, hy1, x1, hx1, heq, hdb, hsrc⟩
      have hc : (h - 1 - y1) / 8 < get_byte_size h := div8_lt_gbs (by omega)
      obtain ⟨hx1y, hdd⟩ := mul_add_lt_inj hc hdiv heq
      have hxe : h - 1 - y1 = x' := by omega
      have hy1e : y1 = h - 1 - x' := by omega
      rw [hx1y, hy1e] at hsrc
      exact hsrc
    · intro hsrc
      refine ⟨h - 1 - x', by omega, y', hy, ?_, ?_, ?_⟩
      · have hsub : h - 1 - (h - 1 - x') = x' := by omega
        rw [hsub]
      · have hsub : h - 1 - (h - 1 - x') = x' := by omega
        rw [hsub]
      · exact hsrc
  · rw [if_neg hxh]
    constructor
    · rintro ⟨y1, hy1, x1, hx1, heq, hdb, hsrc⟩
      have hc : (h - 1 - y1) / 8 < get_byte_size h := div8_lt_gbs (by omega)
      obtain ⟨hx1y, hdd⟩ := mul_add_lt_inj hc hdiv heq
      have : h - 1 - y1 = x' := by omega
      omega
    · intro hf
      exact absurd hf (by simp)

/-- Every bit above bit 7 of every byte of the 90-degree scatter output
is clear (each written value is a single bit shifted by at most 7). -/
theorem testBit_rot90core_high (buf : List Nat) (w h i j : Nat) (hj : 8 ≤ j) :
    ((Display.rot90core buf w h).getD i 0).testBit j = false := by
  by_cases hi : i < get_byte_size h * w
  · cases hb : ((Display.rot90core buf w h).getD i 0).testBit j
    · rfl
    · exfalso
      rw [rot90core_eq_orWrites] at hb
      have hchar := (testBit_orWrites _ _ i j
        (by rw [List.length_replicate]; exact hi)).mp hb
      rw [getD_replicate_zero] at hchar
      rcases hchar with hz | hex
      · rw [Nat.zero_testBit] at hz
        exact absurd hz (by simp)
      · obtain ⟨y1, hy1, x1, hx1, heq, hbit⟩ := exists_mem_scatter.mp hex
        rw [testBit_scatter_val] at hbit
        omega
  · have hlen : (Display.rot90core buf w h).length ≤ i := by
      rw [length_rot90core]
      omega
    rw [List.getD_eq_default _ _ hlen, Nat.zero_testBit]

theorem hmsb_to_vlsb_eq_orWrites (buf : List Nat) (w h : Nat) :
    Display.buf_hmsb_to_vlsb buf w h
      = orWrites (List.replicate (get_byte_size h * w) 0)
          ((List.range h).flatMap fun y1 => (List.range w).map fun x1 =>
            ((y1 / 8) * w + x1,
              (((buf.getD (y1 * get_byte_size w + x1 / 8) 0) >>> (x1 % 8)) &&& 1)
                <<< (y1 % 8))) :=
  nested_foldl_orWrites
    (fun x1 y1 =>
      ((y1 / 8) * w + x1,
        (((buf.getD (y1 * get_byte_size w + x1 / 8) 0) >>> (x1 % 8)) &&& 1)
          <<< (y1 % 8)))
    w h (List.replicate (get_byte_size h * w) 0)

theorem length_hmsb_to_vlsb (buf : List Nat) (w h : Nat) :
    (Display.buf_hmsb_to_vlsb buf w h).length = get_byte_size h * w := by
  rw [hmsb_to_vlsb_eq_orWrites, length_orWrites, List.length_replicate]

end RotateCharacterization


section ClaimC5

/-- Claim C5: for every row-major packed buffer of width `w` and height
`h` (`h` a multiple of 8) and every pixel `(x, y)` with `0 ≤ x < w` and
`0 ≤ y < h`, `buf_hmsb_to_vlsb` produces an output in which bit
`y % 8` of the byte at index `(y / 8) * w + x` equals bit `x % 8` of the
input byte at index `y * ⌈w/8⌉ + x / 8`; the output has length
`⌈h/8⌉ * w`. -/
theorem c5_hmsb_to_vlsb_bit_mapping (buf : List Nat) (w h x y : Nat)
    (hmul : h % 8 = 0) (hx : x < w) (hy : y < h)
    (hlen : buf.length = get_byte_size w * h) :
    (Display.buf_hmsb_to_vlsb buf w h).length = get_byte_size h * w ∧
      ((Display.buf_hmsb_to_vlsb buf w h).getD (y / 8 * w + x) 0).testBit (y % 8)
        = (buf.getD (y * get_byte_size w + x / 8) 0).testBit (x % 8) := by
  refine ⟨length_hmsb_to_vlsb buf w h, ?_⟩
  have hhb : y / 8 < get_byte_size h := div8_lt_gbs hy
  have hidx : y / 8 * w + x < get_byte_size h * w :=
    idx_lt (B := w) (n := get_byte_size h) hhb hx
  rw [Bool.eq_iff_iff, hmsb_to_vlsb_eq_orWrites,
    testBit_orWrites _ _ _ _ (by rw [List.length_replicate]; exact hidx),
    getD_replicate_zero]
  simp only [Nat.zero_testBit, Bool.false_eq_true, false_or, exists_mem_scatter,
    testBit_scatter_val]
  constructor
  · rintro ⟨y1, hy1, x1, hx1, heq, hdb, hsrc⟩
    obtain ⟨hq, hx1e⟩ := mul_add_lt_inj hx1 hx heq
    have hy1e : y1 = y := by omega
    rw [hx1e, hy1e] at hsrc
    exact hsrc
  · intro hsrc
    exact ⟨y, hy, x, hx, rfl, rfl, hsrc⟩

/-- Witness for C5 at `w = 3`, `h = 8`, `(x, y) = (1, 3)`. -/
theorem c5_hmsb_to_vlsb_bit_mapping_witness :
    (Display.buf_hmsb_to_vlsb [1, 2, 3, 4, 5, 6, 7, 8] 3 8).length
        = get_byte_size 8 * 3 ∧
      ((Display.buf_hmsb_to_vlsb [1, 2, 3, 4, 5, 6, 7, 8] 3 8).getD
          (3 / 8 * 3 + 1) 0).testBit (3 % 8)
        = (([1, 2, 3, 4, 5, 6, 7, 8] : List Nat).getD
          (3 * get_byte_size 3 + 1 / 8) 0).testBit (1 % 8) :=
  c5_hmsb_to_vlsb_bit_mapping [1, 2, 3, 4, 5, 6, 7, 8] 3 8 1 3
    (by decide) (by decide) (by decide) (by decide)

end ClaimC5

section ClaimC4

/-- Reduction lemma: `xform_buf` with `invert = False`, `rotate = 90` is exactly the
90-degree scatter with swapped output dimensions. -/
theorem xform_buf_false_90 (buf : List Nat) (w h : Nat) :
    Display.xform_buf buf w h false 90 = (Display.rot90core buf w h, h, w) := by
  simp [Display.xform_buf]

/-- Claim C4: for every packed buffer `b` with its width `w` and height
`h` (a well-formed bytearray of the documented length whose padding bits
are clear), applying the 90-degree rotation four times in succession
(each application swapping the dimensions) yields the original buffer
bit-for-bit. -/
theorem c4_rotate90_four_times (b : List Nat) (w h : Nat)
    (hw : 0 < w) (hh : 0 < h)
    (hlen : b.length = get_byte_size w * h)
    (hbytes : ∀ c ∈ b, c < 256)
    (hpad : ∀ y, y < h → ∀ x, x < 8 * get_byte_size w → w ≤ x →
      getPix b (get_byte_size w) x y = false) :
    (let r1 := Display.xform_buf b w h false 90
     let r2 := Display.xform_buf r1.1 r1.2.1 r1.2.2 false 90
     let r3 := Display.xform_buf r2.1 r2.2.1 r2.2.2 false 90
     Display.xform_buf r3.1 r3.2.1 r3.2.2 false 90) = (b, w, h) := by
  simp only [xform_buf_false_90]
  set wb := get_byte_size w with hwb
  set hb := get_byte_size h with hhb
  set B1 := Display.rot90core b w h with hB1
  set B2 := Display.rot90core B1 h w with hB2
  set B3 := Display.rot90core B2 w h with hB3
  set B4 := Display.rot90core B3 h w with hB4
  have p1 : ∀ x y, x < 8 * hb → y < w →
      getPix B1 hb x y = if x < h then getPix b wb y (h - 1 - x) else false :=
    fun x y hx hy => getPix_rot90core b w h x y hh hx hy
  have p2 : ∀ x y, x < 8 * wb → y < h →
      getPix B2 wb x y = if x < w then getPix b wb (w - 1 - x) (h - 1 - y) else false := by
    intro x y hx hy
    rw [getPix_rot90core B1 h w x y hw hx hy]
    by_cases hxw : x < w
    · rw [if_pos hxw, if_pos hxw,
        p1 y (w - 1 - x) (by have := le_8_gbs h; omega) (by omega), if_pos hy]
    · rw [if_neg hxw, if_neg hxw]
  have p3 : ∀ x y, x < 8 * hb → y < w →
      getPix B3 hb x y = if x < h then getPix b wb (w - 1 - y) x else false := by
    intro x y hx hy
    rw [getPix_rot90core B2 w h x y hh hx hy]
    by_cases hxh : x < h
    · rw [if_pos hxh, if_pos hxh,
        p2 y (h - 1 - x) (by have := le_8_gbs w; omega) (by omega), if_pos hy]
      have hsub : h - 1 - (h - 1 - x) = x := by omega
      rw [hsub]
    · rw [if_neg hxh, if_neg hxh]
  have p4 : ∀ x y, x < 8 * wb → y < h →
      getPix B4 wb x y = if x < w then getPix b wb x y else false := by
    intro x y hx hy
    rw [getPix_rot90core B3 h w x y hw hx hy]
    by_cases hxw : x < w
    · rw [if_pos hxw, if_pos hxw,
        p3 y (w - 1 - x) (by have := le_8_gbs h; omega) (by omega), if_pos hy]
      have hsub : w - 1 - (w - 1 - x) = x := by omega
      rw [hsub]
    · rw [if_neg hxw, if_neg hxw]
  have hwb0 : 0 < wb := gbs_pos hw
  have hlen4 : B4.length = wb * h := length_rot90core B3 h w
  have hmain : B4 = b := by
    apply List.ext_getElem (by rw [hlen4, hlen])
    intro n h1 h2
    rw [← List.getD_eq_getElem B4 0 h1, ← List.getD_eq_getElem b 0 h2]
    apply Nat.eq_of_testBit_eq
    intro j
    by_cases hj : j < 8
    · have hq : n / wb < h := by
        rw [Nat.div_lt_iff_lt_mul hwb0, Nat.mul_comm]
        rw [hlen4] at h1
        exact h1
      have hk : n % wb < wb := Nat.mod_lt n hwb0
      have hnk : n = n / wb * wb + n % wb := by
        rw [Nat.mul_comm]
        exact (Nat.div_add_mod n wb).symm
      have hx8 : 8 * (n % wb) + j < 8 * wb := by omega
      have hdl : (8 * (n % wb) + j) / 8 = n % wb := by omega
      have hml : (8 * (n % wb) + j) % 8 = j := by omega
      have e4 : (B4.getD n 0).testBit j
          = getPix B4 wb (8 * (n % wb) + j) (n / wb) := by
        simp only [getPix]
        rw [hdl, hml, ← hnk]
      have eb : (b.getD n 0).testBit j
          = getPix b wb (8 * (n % wb) + j) (n / wb) := by
        simp only [getPix]
        rw [hdl, hml, ← hnk]
      rw [e4, eb, p4 _ _ hx8 hq]
      by_cases hxw : 8 * (n % wb) + j < w
      · rw [if_pos hxw]
      · rw [if_neg hxw,
          hpad (n / wb) hq (8 * (n % wb) + j) hx8 (by omega)]
    · rw [testBit_rot90core_high B3 h w n j (by omega)]
      have hmem : b.getD n 0 ∈ b := by
        rw [List.getD_eq_getElem b 0 h2]
        exact List.getElem_mem h2
      have hlt : b.getD n 0 < 2 ^ j := by
        calc b.getD n 0 < 256 := hbytes _ hmem
          _ = 2 ^ 8 := by norm_num
          _ ≤ 2 ^ j := Nat.pow_le_pow_right (by omega) (by omega)
      rw [Nat.testBit_lt_two_pow hlt]
  rw [hmain]

/-- Witness for C4 on the 3x2 buffer `[0x05, 0x02]`. -/
theorem c4_rotate90_four_times_witness :
    (let r1 := Display.xform_buf [5, 2] 3 2 false 90
     let r2 := Display.xform_buf r1.1 r1.2.1 r1.2.2 false 90
     let r3 := Display.xform_buf r2.1 r2.2.1 r2.2.2 false 90
     Display.xform_buf r3.1 r3.2.1 r3.2.2 false 90) = ([5, 2], 3, 2) :=
  c4_rotate90_four_times [5, 2] 3 2 (by decide) (by decide) (by decide)
    (by decide) (by decide)

end ClaimC4

section ClaimC8

theorem foldl_id {α β : Type} (l : List β) (acc : α) :
    l.foldl (fun b _ => b) acc = acc := by
  induction l generalizing acc with
  | nil => rfl
  | cons hd tl ih => simp [ih]

theorem rot90core_zero_w (buf : List Nat) (h : Nat) :
    Display.rot90core buf 0 h = [] := by
  unfold Display.rot90core
  simp [foldl_id]

theorem rot270core_zero_w (buf : List Nat) (h : Nat) :
    Display.rot270core buf 0 h = [] := by
  unfold Display.rot270core
  simp [foldl_id]

/-- Claim C8, as stated, is false: there is no dimension validation in
the code.  At the concrete input `xform_buf(bytearray(0), 0, 0,
invert=False, rotate=90)` the call is not rejected — it completes and
produces a result buffer (the empty one with swapped dimensions). -/
theorem c8_zero_dim_counterexample :
    Display.xform_buf [] 0 0 false 90 = ([], 0, 0) := by decide

/-- Claim C8 amended: a width argument of 0 is **not** rejected — none
of the buffer/conversion operations validates its dimensions; the calls
run to completion (no loop iteration can raise, as every loop range is
empty) and return an empty output buffer. -/
theorem c8_zero_dim_amended :
    (∀ (h : Nat) (i : Bool) (r : Nat), (Display.xform_buf [] 0 h i r).1 = []) ∧
      (∀ (buf : List Nat) (h : Nat), Display.mirror_horizontal buf 0 h = []) ∧
      (∀ (buf : List Nat) (h : Nat), Display.buf_hmsb_to_vlsb buf 0 h = []) := by
  refine ⟨?_, ?_, ?_⟩
  · intro h i r
    unfold Display.xform_buf
    cases i <;>
      simp only [List.map_nil, if_true, if_false, Bool.false_eq_true] <;>
      split_ifs <;>
      simp [rot90core_zero_w, rot270core_zero_w]
  · intro buf h
    unfold Display.mirror_horizontal
    simp [foldl_id, get_byte_size]
  · intro buf h
    unfold Display.buf_hmsb_to_vlsb
    simp [foldl_id]

end ClaimC8

section ClaimC3C7

/-- Claim C3 is contradicted by the code: on the odd-width buffer
`bytearray([0x01])` with `w = h = 1`, the input pixel `(0, 0)` (the
centre column) is lit, but `mirror_horizontal` returns `bytearray([0x00])`
— the centre column is dropped (the swap loop runs `x1 < w // 2 = 0`
times and the output starts zeroed), not carried over. -/
theorem c3_mirror_center_column_bug :
    Display.mirror_horizontal [1] 1 1 = [0] ∧
      getPix [1] (get_byte_size 1) 0 0 = true ∧
      getPix (Display.mirror_horizontal [1] 1 1) (get_byte_size 1) 0 0 = false := by
  decide

/-- Claim C7 is contradicted by the code: double application of
`mirror_horizontal` on the odd-width buffer `bytearray([0x01])` with
`w = h = 1` yields `bytearray([0x00])`, not the original buffer, because
each application clears the centre column. -/
theorem c7_mirror_not_involution_odd_width :
    Display.mirror_horizontal (Display.mirror_horizontal [1] 1 1) 1 1 = [0] ∧
      ([0] : List Nat) ≠ [1] := by
  decide

end ClaimC3C7

section ClaimC2

/-- Claim C2, as stated, is false at the concrete call
`write_cmd(0x21, 32)`: the argument byte 32 is never transmitted as a
command-framed write `[0x80, 32]` — the only transmitted frame is the
command itself, and the argument path aborts in `write_data`. -/
theorem c2_write_cmd_counterexample :
    (Display.write_cmd 33 [32]).1 = [[0x80, 33]] ∧
      [0x80, 32] ∉ (Display.write_cmd 33 [32]).1 := by
  decide

/-- Claim C2 amended: a `write_cmd` call with argument bytes transmits
the command byte as one framed command write `[0x80, command]`, and then
routes the arguments to `write_data` — the data-framing path, not the
command-framing path — where building `bytearray([0x40, args])` from
the argument tuple raises `TypeError`, so no argument byte is ever
framed, with the command control byte or otherwise. -/
theorem c2_write_cmd_amended (c : Nat) (args : List Nat) (hargs : args ≠ []) :
    (Display.write_cmd c args).1 = [[0x80, c]] ∧
      (Display.write_cmd c args).2 = some "TypeError" := by
  have hl : 0 < args.length := List.length_pos.mpr hargs
  simp [Display.write_cmd, Display.write_data, hl]

/-- Witness for the amended C2 at `write_cmd(0x21, 32)`. -/
theorem c2_write_cmd_amended_witness :
    (Display.write_cmd 33 [32]).1 = [[0x80, 33]] ∧
      (Display.write_cmd 33 [32]).2 = some "TypeError" :=
  c2_write_cmd_amended 33 [32] (by decide)

end ClaimC2

section ClaimC6

/-- Claim C6: `present_buf` issues the column-address command pair
`(32, w+31)` — the raw columns `0` and `w-1` shifted by `+32` — exactly
when `w = 64`, and the unshifted pair `(0, w-1)` for every other width
(in particular 128); the full trace is the six framed commands followed
by one data transfer. -/
theorem c6_present_column_offset (buf : List Nat) (w h : Nat) (hw : 0 < w) :
    Display.present_buf buf w h
      = [[0x80, 0x21], [0x80, if w = 64 then 32 else 0],
         [0x80, if w = 64 then w + 31 else w - 1], [0x80, 0x22], [0x80, 0],
         [0x80, h / 8 - 1], 0x40 :: buf] := by
  by_cases h64 : w = 64
  · subst h64
    simp [Display.present_buf, Display.write_cmd, Display.write_data,
      Display.COLUMN_ADDRESS, Display.PAGE_ADDRESS]
  · simp [Display.present_buf, Display.write_cmd, Display.write_data,
      Display.COLUMN_ADDRESS, Display.PAGE_ADDRESS, h64]

/-- Witness for C6: a presented 64x64 buffer gets the shifted column
window 32..95. -/
theorem c6_present_column_offset_witness :
    Display.present_buf [7] 64 64
      = [[0x80, 0x21], [0x80, 32], [0x80, 95], [0x80, 0x22], [0x80, 0],
         [0x80, 7], [0x40, 7]] := by
  simpa using c6_present_column_offset [7] 64 64 (by decide)

end ClaimC6

section GraphicsLemmas

theorem is_off_grid_true_iff (d : DisplayState) (a b c e : Int) :
    Display.is_off_grid d a b c e = true ↔
      (a < 0 ∨ b < 0 ∨ d.width ≤ c ∨ d.height ≤ e) := by
  unfold Display.is_off_grid
  split_ifs <;> simp <;> omega

theorem draw_hline_offgrid (d : DisplayState) (x y w : Int) (inv : Bool)
    (hcond : x < 0 ∨ y < 0 ∨ d.width ≤ x + w - 1 ∨ d.height ≤ y) :
    Display.draw_hline d x y w inv = (d, true) := by
  have ht : Display.is_off_grid d x y (x + w - 1) y = true :=
    (is_off_grid_true_iff d _ _ _ _).mpr hcond
  unfold Display.draw_hline
  rw [ht]
  simp

theorem draw_vline_offgrid (d : DisplayState) (x y h : Int) (inv : Bool)
    (hcond : x < 0 ∨ y < 0 ∨ d.width ≤ x ∨ d.height ≤ y + h) :
    Display.draw_vline d x y h inv = (d, true) := by
  have ht : Display.is_off_grid d x y x (y + h) = true :=
    (is_off_grid_true_iff d _ _ _ _).mpr hcond
  unfold Display.draw_vline
  rw [ht]
  simp

/-- A `draw_vline` call either at a column other than `x0`, or one whose
checked row range runs past the canvas bottom, leaves column `x0` of the
frame (and the canvas dimensions) unchanged. -/
theorem vline_col_invariant (d : DisplayState) (x0 xc y h : Int) (inv : Bool)
    (py : Int) (hcase : xc ≠ x0 ∨ d.height ≤ y + h) :
    ((Display.draw_vline d xc y h inv).1).frame x0 py = d.frame x0 py ∧
      ((Display.draw_vline d xc y h inv).1).height = d.height ∧
      ((Display.draw_vline d xc y h inv).1).width = d.width := by
  by_cases hck : Display.is_off_grid d xc y xc (y + h) = true
  · unfold Display.draw_vline
    rw [hck]
    exact ⟨rfl, rfl, rfl⟩
  · have hxc : xc ≠ x0 := by
      rcases hcase with h1 | h2
      · exact h1
      · exact absurd ((is_off_grid_true_iff d _ _ _ _).mpr
          (Or.inr (Or.inr (Or.inr h2)))) hck
    unfold Display.draw_vline
    rw [Bool.not_eq_true] at hck
    rw [hck]
    refine ⟨?_, rfl, rfl⟩
    show (fb_vline d xc y h (!inv)).frame x0 py = d.frame x0 py
    unfold fb_vline fb_fill_rect
    exact if_neg (by omega)

end GraphicsLemmas

section ClaimC1

/-- Claim C1, as stated, fails on `draw_rectangle`: at the concrete
off-grid request `draw_rectangle(-1, 0, 3, 3)` on a blank 128x64
display, the frame buffer is changed (pixel `(0, 0)` becomes lit —
the underlying `FrameBuffer.rect` clips pixel-by-pixel) and no off-grid
condition is reported. -/
theorem c1_rectangle_counterexample :
    (Display.draw_rectangle (blank_display 128 64) (-1) 0 3 3 false).2 = false ∧
      (Display.draw_rectangle (blank_display 128 64) (-1) 0 3 3 false).1.frame 0 0
        = true := by
  constructor
  · rfl
  · decide

/-- Claim C1 amended: the whole-primitive skip-and-report discipline
holds for `draw_pixel`, `draw_hline`, `draw_vline`, `draw_line`,
`fill_rectangle` and `draw_sprite` whenever their footprint leaves
`[0,width) × [0,height)` (for `draw_line`, equivalently, whenever an
endpoint is off-grid), and for `draw_text8x8` whenever the first glyph
cell extended to `(x+8, y+8)` is off-grid; the outlined rectangle
`draw_rectangle` is the exception — it performs no footprint check,
never reports, and is clipped pixel-by-pixel by the frame buffer. -/
theorem c1_offgrid_skip_amended :
    (∀ (d : DisplayState) (x y : Int) (inv : Bool),
        (x < 0 ∨ y < 0 ∨ d.width ≤ x ∨ d.height ≤ y) →
        Display.draw_pixel d x y inv = (d, true)) ∧
    (∀ (d : DisplayState) (x y w : Int) (inv : Bool), 1 ≤ w →
        (x < 0 ∨ y < 0 ∨ d.width ≤ x + w - 1 ∨ d.height ≤ y) →
        Display.draw_hline d x y w inv = (d, true)) ∧
    (∀ (d : DisplayState) (x y h : Int) (inv : Bool), 1 ≤ h →
        (x < 0 ∨ y < 0 ∨ d.width ≤ x ∨ d.height ≤ y + h - 1) →
        Display.draw_vline d x y h inv = (d, true)) ∧
    (∀ (d : DisplayState) (x1 y1 x2 y2 : Int) (inv : Bool),
        (x1 < 0 ∨ y1 < 0 ∨ d.width ≤ x1 ∨ d.height ≤ y1 ∨
          x2 < 0 ∨ y2 < 0 ∨ d.width ≤ x2 ∨ d.height ≤ y2) →
        Display.draw_line d x1 y1 x2 y2 inv = (d, true)) ∧
    (∀ (d : DisplayState) (x y w h : Int) (inv : Bool), 1 ≤ w → 1 ≤ h →
        (x < 0 ∨ y < 0 ∨ d.width ≤ x + w - 1 ∨ d.height ≤ y + h - 1) →
        Display.fill_rectangle d x y w h inv = (d, true)) ∧
    (∀ (d : DisplayState) (s : Sprite) (x y w h : Int), 1 ≤ w → 1 ≤ h →
        (x < 0 ∨ y < 0 ∨ d.width ≤ x + w - 1 ∨ d.height ≤ y + h - 1) →
        Display.draw_sprite d s x y w h = (d, true)) ∧
    (∀ (font : Char → Nat → Nat → Bool) (d : DisplayState) (s : List Char)
        (x y : Int),
        (x < 0 ∨ y < 0 ∨ d.width ≤ x + 7 ∨ d.height ≤ y + 7) →
        Display.draw_text8x8 font d s x y = (d, true)) ∧
    (∀ (d : DisplayState) (x y w h : Int) (inv : Bool),
        (Display.draw_rectangle d x y w h inv).2 = false) := by
  refine ⟨?_, ?_, ?_, ?_, ?_, ?_, ?_, ?_⟩
  · intro d x y inv hc
    have ht : Display.is_off_grid d x y x y = true :=
      (is_off_grid_true_iff d _ _ _ _).mpr hc
    unfold Display.draw_pixel
    rw [ht]
    simp
  · intro d x y w inv hw hc
    exact draw_hline_offgrid d x y w inv (by omega)
  · intro d x y h inv hh hc
    exact draw_vline_offgrid d x y h inv (by omega)
  · intro d x1 y1 x2 y2 inv hc
    unfold Display.draw_line
    by_cases hy : y1 = y2
    · rw [if_pos hy]
      by_cases hx : x2 < x1 <;> [rw [if_pos hx]; rw [if_neg hx]] <;>
        exact draw_hline_offgrid d _ _ _ inv (by simp only; omega)
    · rw [if_neg hy]
      by_cases hx : x1 = x2
      · rw [if_pos hx]
        by_cases hyy : y2 < y1 <;> [rw [if_pos hyy]; rw [if_neg hyy]] <;>
          exact draw_vline_offgrid d _ _ _ inv (by simp only; omega)
      · rw [if_neg hx]
        have ht : Display.is_off_grid d (min x1 x2) (min y1 y2)
            (max x1 x2) (max y1 y2) = true :=
          (is_off_grid_true_iff d _ _ _ _).mpr (by omega)
        rw [ht]
        simp
  · intro d x y w h inv hw hh hc
    have ht : Display.is_off_grid d x y (x + w - 1) (y + h - 1) = true :=
      (is_off_grid_true_iff d _ _ _ _).mpr (by omega)
    unfold Display.fill_rectangle
    rw [ht]
    simp
  · intro d s x y w h hw hh hc
    have ht : Display.is_off_grid d x y (x + w - 1) (y + h - 1) = true :=
      (is_off_grid_true_iff d _ _ _ _).mpr (by omega)
    unfold Display.draw_sprite
    rw [ht]
    simp
  · intro font d s x y hc
    have ht : Display.is_off_grid d x y (x + 8) (y + 8) = true :=
      (is_off_grid_true_iff d _ _ _ _).mpr (by omega)
    unfold Display.draw_text8x8
    rw [ht]
    simp
  · intro d x y w h inv
    rfl

/-- Witness for the amended C1: each checked primitive rejects a
concrete off-grid request on a blank 128x64 display, and the outlined
rectangle reports nothing. -/
theorem c1_offgrid_skip_amended_witness :
    Display.draw_pixel (blank_display 128 64) (-1) 0 false
        = (blank_display 128 64, true) ∧
      Display.draw_hline (blank_display 128 64) 120 5 20 false
        = (blank_display 128 64, true) ∧
      Display.draw_vline (blank_display 128 64) 5 60 10 false
        = (blank_display 128 64, true) ∧
      Display.draw_line (blank_display 128 64) (-3) 2 5 7 false
        = (blank_display 128 64, true) ∧
      Display.fill_rectangle (blank_display 128 64) 2 2 4 200 false
        = (blank_display 128 64, true) ∧
      Display.draw_sprite (blank_display 128 64) ⟨4, 4, fun _ _ => true⟩ 126 0 4 4
        = (blank_display 128 64, true) ∧
      Display.draw_text8x8 (fun _ _ _ => false) (blank_display 128 64)
          ['a'] 125 0
        = (blank_display 128 64, true) ∧
      (Display.draw_rectangle (blank_display 128 64) 0 0 5 5 false).2 = false :=
  ⟨c1_offgrid_skip_amended.1 _ (-1) 0 false (by decide),
    c1_offgrid_skip_amended.2.1 _ 120 5 20 false (by decide) (by decide),
    c1_offgrid_skip_amended.2.2.1 _ 5 60 10 false (by decide) (by decide),
    c1_offgrid_skip_amended.2.2.2.1 _ (-3) 2 5 7 false (by decide),
    c1_offgrid_skip_amended.2.2.2.2.1 _ 2 2 4 200 false (by decide) (by decide)
      (by decide),
    c1_offgrid_skip_amended.2.2.2.2.2.1 _ _ 126 0 4 4 (by decide) (by decide)
      (by decide),
    c1_offgrid_skip_amended.2.2.2.2.2.2.1 _ _ _ 125 0 (by decide),
    c1_offgrid_skip_amended.2.2.2.2.2.2.2 _ 0 0 5 5 false⟩

end ClaimC1

section ClaimC10

/-- Column `x0` of the frame is untouched by the `fill_circle` midpoint
loop whenever the circle's lowest row `y0 + r` is the bottom row of the
canvas: the only spans that could hit column `x0` are those with span
half-height `y = 0`, and those are exactly the spans whose checked range
`y0 - x .. y0 + x + 1` runs past the canvas (because `x + y ≥ r` is a
loop invariant), so `draw_vline` drops them. -/
theorem fill_circle_loop_col (x0 y0 r : Int) (inv : Bool) :
    ∀ (n : Nat) (f dx dy x y : Int) (d : DisplayState),
      (y - x).toNat ≤ n → 0 ≤ x → r ≤ x + y → y0 + r + 1 = d.height →
      ∀ py : Int,
        (Display.fill_circle_loop d x0 y0 inv f dx dy x y).frame x0 py
          = d.frame x0 py := by
  intro n
  induction n with
  | zero =>
    intro f dx dy x y d hfuel hx hxy hh py
    unfold Display.fill_circle_loop
    rw [if_neg (by omega)]
  | succ n ih =>
    intro f dx dy x y d hfuel hx hxy hh py
    unfold Display.fill_circle_loop
    by_cases hlt : x < y
    · rw [if_pos hlt]
      simp only []
      set y' := if 0 ≤ f then y - 1 else y with hy'
      have hy'b : y - 1 ≤ y' ∧ y' ≤ y := by
        rw [hy']
        split <;> omega
      set x' := x + 1 with hx'
      obtain ⟨hf1, hh1, hw1⟩ := vline_col_invariant d x0 (x0 + x')
        (y0 - y') (2 * y' + 1) inv py (Or.inl (by omega))
      set d1 := (Display.draw_vline d (x0 + x') (y0 - y') (2 * y' + 1) inv).1
        with hd1
      obtain ⟨hf2, hh2, hw2⟩ := vline_col_invariant d1 x0 (x0 - x')
        (y0 - y') (2 * y' + 1) inv py (Or.inl (by omega))
      set d2 := (Display.draw_vline d1 (x0 - x') (y0 - y') (2 * y' + 1) inv).1
        with hd2
      have hcase3 : x0 - y' ≠ x0 ∨ d2.height ≤ (y0 - x') + (2 * x' + 1) := by
        by_cases hy0 : y' = 0
        · right
          rw [hh2, hh1]
          omega
        · left
          omega
      obtain ⟨hf3, hh3, hw3⟩ := vline_col_invariant d2 x0 (x0 - y')
        (y0 - x') (2 * x' + 1) inv py hcase3
      set d3 := (Display.draw_vline d2 (x0 - y') (y0 - x') (2 * x' + 1) inv).1
        with hd3
      have hcase4 : x0 + y' ≠ x0 ∨ d3.height ≤ (y0 - x') + (2 * x' + 1) := by
        by_cases hy0 : y' = 0
        · right
          rw [hh3, hh2, hh1]
          omega
        · left
          omega
      obtain ⟨hf4, hh4, hw4⟩ := vline_col_invariant d3 x0 (x0 + y')
        (y0 - x') (2 * x' + 1) inv py hcase4
      set d4 := (Display.draw_vline d3 (x0 + y') (y0 - x') (2 * x' + 1) inv).1
        with hd4
      have hrec := ih ((if 0 ≤ f then f + dy + 2 else f) + (dx + 2)) (dx + 2)
        (if 0 ≤ f then dy + 2 else dy) x' y' d4
        (by omega) (by omega) (by omega)
        (by rw [hh4, hh3, hh2, hh1]; exact hh) py
      rw [hrec, hf4, hf3, hf2, hf1]
    · rw [if_neg hlt]

/-- Claim C10: `draw_vline(x, y, h)` includes row `y + h` — one past its
last pixel — in the bounds check, so a vertical line whose pixels end
exactly at the bottom row (`y + h = height`) draws nothing and is
reported off-grid even though every pixel is on-grid (in particular
`draw_vline(x, 0, height)` is a no-op); consequently the vertical spans
of `fill_circle` that reach the bottom row are silently dropped — when
the circle's lowest point is the bottom row, its centre column is left
completely unchanged. -/
theorem c10_vline_bottom_row_dropped :
    (∀ (d : DisplayState) (x y h : Int) (inv : Bool),
        0 ≤ x → x < d.width → 0 ≤ y → 1 ≤ h → y + h = d.height →
        Display.draw_vline d x y h inv = (d, true)) ∧
    (∀ (d : DisplayState) (x0 y0 r : Int) (inv : Bool),
        1 ≤ r → y0 + r = d.height - 1 →
        ∀ py : Int,
          (Display.fill_circle d x0 y0 r inv).frame x0 py = d.frame x0 py) := by
  constructor
  · intro d x y h inv hx0 hxw hy0 hh hbot
    exact draw_vline_offgrid d x y h inv (by omega)
  · intro d x0 y0 r inv hr hbot
    intro py
    unfold Display.fill_circle
    simp only []
    obtain ⟨hf0, hh0, hw0⟩ := vline_col_invariant d x0 x0 (y0 - r)
      (2 * r + 1) inv py (Or.inr (by omega))
    rw [fill_circle_loop_col x0 y0 r inv (r - 0).toNat (1 - r) 1 (-r - r) 0 r _
      (by omega) (by omega) (by omega) (by rw [hh0]; omega) py, hf0]

/-- Witness for C10: the full-height vertical line `draw_vline(3, 0, 64)`
on a blank 128x64 display is a no-op reported off-grid, and
`fill_circle(10, 53, 10)` — a circle whose lowest row is the bottom
row 63 — leaves its centre column untouched (pixel `(10, 53)`, the
centre itself, stays clear). -/
theorem c10_vline_bottom_row_dropped_witness :
    Display.draw_vline (blank_display 128 64) 3 0 64 false
        = (blank_display 128 64, true) ∧
      (Display.fill_circle (blank_display 128 64) 10 53 10 false).frame 10 53
        = false :=
  ⟨c10_vline_bottom_row_dropped.1 (blank_display 128 64) 3 0 64 false
      (by decide) (by decide) (by decide) (by decide) (by decide),
    c10_vline_bottom_row_dropped.2 (blank_display 128 64) 10 53 10 false
      (by decide) (by decide) 53⟩

end ClaimC10

section ClaimC9

theorem width_draw_pixel (d : DisplayState) (x y : Int) (inv : Bool) :
    ((Display.draw_pixel d x y inv).1).width = d.width := by
  unfold Display.draw_pixel fb_pixel_set
  split
  · rfl
  · split <;> rfl

theorem height_draw_pixel (d : DisplayState) (x y : Int) (inv : Bool) :
    ((Display.draw_pixel d x y inv).1).height = d.height := by
  unfold Display.draw_pixel fb_pixel_set
  split
  · rfl
  · split <;> rfl

/-- An in-bounds `draw_pixel(x, y, invert=False)` call sets exactly the
pixel `(x, y)`. -/
theorem frame_draw_pixel_inb (d : DisplayState) (x y : Int)
    (hx0 : 0 ≤ x) (hxw : x < d.width) (hy0 : 0 ≤ y) (hyh : y < d.height) :
    ∀ p q : Int, ((Display.draw_pixel d x y false).1).frame p q
      = if p = x ∧ q = y then true else d.frame p q := by
  intro p q
  have hck : Display.is_off_grid d x y x y = false := by
    rw [Bool.eq_false_iff, Ne, is_off_grid_true_iff]
    omega
  unfold Display.draw_pixel fb_pixel_set
  rw [hck]
  simp only [Bool.false_eq_true, if_false, Bool.not_false]
  rw [if_pos ⟨hx0, hxw, hy0, hyh⟩]

theorem symAbout_ext (x0 y0 : Int) (f g : Int → Int → Bool)
    (h : ∀ p q, f p q = g p q) (hs : SymAbout x0 y0 g) :
    SymAbout x0 y0 f := by
  intro a b
  obtain ⟨s1, s2, s3⟩ := hs a b
  simp only [h]
  exact ⟨s1, s2, s3⟩

theorem symAbout_or (x0 y0 : Int) (f base : Int → Int → Bool)
    (P : Int → Int → Prop) [inst : ∀ p q, Decidable (P p q)]
    (hfr : ∀ p q, f p q = (base p q || decide (P p q)))
    (hbase : SymAbout x0 y0 base)
    (hP : ∀ a b : Int,
      (P (x0 + a) (y0 + b) ↔ P (x0 - a) (y0 + b)) ∧
      (P (x0 + a) (y0 + b) ↔ P (x0 + a) (y0 - b)) ∧
      (P (x0 + a) (y0 + b) ↔ P (x0 + b) (y0 + a))) :
    SymAbout x0 y0 f := by
  intro a b
  obtain ⟨s1, s2, s3⟩ := hbase a b
  obtain ⟨i1, i2, i3⟩ := hP a b
  refine ⟨?_, ?_, ?_⟩
  · rw [hfr, hfr, s1, decide_eq_decide.mpr i1]
  · rw [hfr, hfr, s2, decide_eq_decide.mpr i2]
  · rw [hfr, hfr, s3, decide_eq_decide.mpr i3]

theorem symAbout_blank (x0 y0 w h : Int) :
    SymAbout x0 y0 (blank_display w h).frame := by
  intro a b
  exact ⟨rfl, rfl, rfl⟩

/-- The frame after the four cardinal-point plots of `draw_circle`
(fully inside the canvas): the previous frame plus the point set
`{(x0, y0±r), (x0±r, y0)}`. -/
theorem frame_after_plot4 (d : DisplayState) (x0 y0 r : Int)
    (hr : 0 ≤ r) (hx1 : r ≤ x0) (hx2 : x0 + r < d.width)
    (hy1 : r ≤ y0) (hy2 : y0 + r < d.height) :
    ∀ p q : Int,
      ((Display.draw_pixel
        ((Display.draw_pixel
          ((Display.draw_pixel
            ((Display.draw_pixel d x0 (y0 + r) false).1)
            x0 (y0 - r) false).1)
          (x0 + r) y0 false).1)
        (x0 - r) y0 false).1).frame p q
      = (d.frame p q ||
          decide ((p = x0 ∧ q = y0 + r) ∨ (p = x0 ∧ q = y0 - r) ∨
            (p = x0 + r ∧ q = y0) ∨ (p = x0 - r ∧ q = y0))) := by
  intro p q
  rw [frame_draw_pixel_inb _ (x0 - r) y0
      (by omega) (by simp only [width_draw_pixel]; omega)
      (by omega) (by simp only [height_draw_pixel]; omega),
    frame_draw_pixel_inb _ (x0 + r) y0
      (by omega) (by simp only [width_draw_pixel]; omega)
      (by omega) (by simp only [height_draw_pixel]; omega),
    frame_draw_pixel_inb _ x0 (y0 - r)
      (by omega) (by simp only [width_draw_pixel]; omega)
      (by omega) (by simp only [height_draw_pixel]; omega),
    frame_draw_pixel_inb _ x0 (y0 + r)
      (by omega) (by omega) (by omega) (by omega)]
  split_ifs <;> simp_all

/-- The frame after one eight-point batch of the `draw_circle` midpoint
loop (offsets `(±u, ±v)` and `(±v, ±u)`, all inside the canvas): the
previous frame plus the eight symmetric images of `(u, v)`. -/
theorem frame_after_plot8 (d : DisplayState) (x0 y0 u v r : Int)
    (hu0 : 0 ≤ u) (hur : u ≤ r) (hv0 : 0 ≤ v) (hvr : v ≤ r)
    (hx1 : r ≤ x0) (hx2 : x0 + r < d.width)
    (hy1 : r ≤ y0) (hy2 : y0 + r < d.height) :
    ∀ p q : Int,
      ((Display.draw_pixel
        ((Display.draw_pixel
          ((Display.draw_pixel
            ((Display.draw_pixel
              ((Display.draw_pixel
                ((Display.draw_pixel
                  ((Display.draw_pixel
                    ((Display.draw_pixel d (x0 + u) (y0 + v) false).1)
                    (x0 - u) (y0 + v) false).1)
                  (x0 + u) (y0 - v) false).1)
                (x0 - u) (y0 - v) false).1)
              (x0 + v) (y0 + u) false).1)
            (x0 - v) (y0 + u) false).1)
          (x0 + v) (y0 - u) false).1)
        (x0 - v) (y0 - u) false).1).frame p q
      = (d.frame p q ||
          decide ((p = x0 + u ∧ q = y0 + v) ∨ (p = x0 - u ∧ q = y0 + v) ∨
            (p = x0 + u ∧ q = y0 - v) ∨ (p = x0 - u ∧ q = y0 - v) ∨
            (p = x0 + v ∧ q = y0 + u) ∨ (p = x0 - v ∧ q = y0 + u) ∨
            (p = x0 + v ∧ q = y0 - u) ∨ (p = x0 - v ∧ q = y0 - u))) := by
  intro p q
  rw [frame_draw_pixel_inb _ (x0 - v) (y0 - u)
      (by omega) (by simp only [width_draw_pixel]; omega)
      (by omega) (by simp only [height_draw_pixel]; omega),
    frame_draw_pixel_inb _ (x0 + v) (y0 - u)
      (by omega) (by simp only [width_draw_pixel]; omega)
      (by omega) (by simp only [height_draw_pixel]; omega),
    frame_draw_pixel_inb _ (x0 - v) (y0 + u)
      (by omega) (by simp only [width_draw_pixel]; omega)
      (by omega) (by simp only [height_draw_pixel]; omega),
    frame_draw_pixel_inb _ (x0 + v) (y0 + u)
      (by omega) (by simp only [width_draw_pixel]; omega)
      (by omega) (by simp only [height_draw_pixel]; omega),
    frame_draw_pixel_inb _ (x0 - u) (y0 - v)
      (by omega) (by simp only [width_draw_pixel]; omega)
      (by omega) (by simp only [height_draw_pixel]; omega),
    frame_draw_pixel_inb _ (x0 + u) (y0 - v)
      (by omega) (by simp only [width_draw_pixel]; omega)
      (by omega) (by simp only [height_draw_pixel]; omega),
    frame_draw_pixel_inb _ (x0 - u) (y0 + v)
      (by omega) (by simp only [width_draw_pixel]; omega)
      (by omega) (by simp only [height_draw_pixel]; omega),
    frame_draw_pixel_inb _ (x0 + u) (y0 + v)
      (by omega) (by omega) (by omega) (by omega)]
  split_ifs <;> simp_all

set_option maxHeartbeats 400000 in
/-- The `draw_circle` midpoint loop preserves eight-fold symmetry about
the centre, provided the circle lies fully inside the canvas.  Loop
invariants: `0 ≤ x` and `y ≤ r`, so every plotted batch has offsets in
`[0, r]` and stays on-grid. -/
theorem circle_loop_sym (x0 y0 r : Int) :
    ∀ (n : Nat) (f dx dy x y : Int) (d : DisplayState),
      (y - x).toNat ≤ n → 0 ≤ x → y ≤ r →
      r ≤ x0 → x0 + r < d.width → r ≤ y0 → y0 + r < d.height →
      SymAbout x0 y0 d.frame →
      SymAbout x0 y0 (Display.circle_loop d x0 y0 false f dx dy x y).frame := by
  intro n
  induction n with
  | zero =>
    intro f dx dy x y d hfuel hx hyr hx0r hwr hy0r hhr hsymd
    unfold Display.circle_loop
    rw [if_neg (by omega)]
    exact hsymd
  | succ n ih =>
    intro f dx dy x y d hfuel hx hyr hx0r hwr hy0r hhr hsymd
    unfold Display.circle_loop
    by_cases hlt : x < y
    · rw [if_pos hlt]
      simp only []
      set y' := if 0 ≤ f then y - 1 else y with hy'
      have hy'b : y - 1 ≤ y' ∧ y' ≤ y := by
        rw [hy']
        split <;> omega
      have h8 := frame_after_plot8 d x0 y0 (x + 1) y' r
        (by omega) (by omega) (by omega) (by omega) hx0r hwr hy0r hhr
      refine ih _ _ _ _ _ _
        (by omega) (by omega) (by omega) hx0r
        (by simp only [width_draw_pixel]; exact hwr) hy0r
        (by simp only [height_draw_pixel]; exact hhr) ?_
      refine symAbout_or x0 y0 _ d.frame
        (fun p q =>
          (p = x0 + (x + 1) ∧ q = y0 + y') ∨ (p = x0 - (x + 1) ∧ q = y0 + y') ∨
          (p = x0 + (x + 1) ∧ q = y0 - y') ∨ (p = x0 - (x + 1) ∧ q = y0 - y') ∨
          (p = x0 + y' ∧ q = y0 + (x + 1)) ∨ (p = x0 - y' ∧ q = y0 + (x + 1)) ∨
          (p = x0 + y' ∧ q = y0 - (x + 1)) ∨ (p = x0 - y' ∧ q = y0 - (x + 1)))
        h8 hsymd ?_
      intro a b
      refine ⟨?_, ?_, ?_⟩
      · constructor
        · rintro (⟨h1, h2⟩ | ⟨h1, h2⟩ | ⟨h1, h2⟩ | ⟨h1, h2⟩ | ⟨h1, h2⟩ | ⟨h1, h2⟩ | ⟨h1, h2⟩ | ⟨h1, h2⟩)
          · exact Or.inr (Or.inl ⟨by omega, by omega⟩)
          · exact Or.inl ⟨by omega, by omega⟩
          · exact Or.inr (Or.inr (Or.inr (Or.inl ⟨by omega, by omega⟩)))
          · exact Or.inr (Or.inr (Or.inl ⟨by omega, by omega⟩))
          · exact Or.inr (Or.inr (Or.inr (Or.inr (Or.inr (Or.inl ⟨by omega, by omega⟩)))))
          · exact Or.inr (Or.inr (Or.inr (Or.inr (Or.inl ⟨by omega, by omega⟩))))
          · exact Or.inr (Or.inr (Or.inr (Or.inr (Or.inr (Or.inr (Or.inr (⟨by omega, by omega⟩)))))))
          · exact Or.inr (Or.inr (Or.inr (Or.inr (Or.inr (Or.inr (Or.inl ⟨by omega, by omega⟩))))))
        · rintro (⟨h1, h2⟩ | ⟨h1, h2⟩ | ⟨h1, h2⟩ | ⟨h1, h2⟩ | ⟨h1, h2⟩ | ⟨h1, h2⟩ | ⟨h1, h2⟩ | ⟨h1, h2⟩)
          · exact Or.inr (Or.inl ⟨by omega, by omega⟩)
          · exact Or.inl ⟨by omega, by omega⟩
          · exact Or.inr (Or.inr (Or.inr (Or.inl ⟨by omega, by omega⟩)))
          · exact Or.inr (Or.inr (Or.inl ⟨by omega, by omega⟩))
          · exact Or.inr (Or.inr (Or.inr (Or.inr (Or.inr (Or.inl ⟨by omega, by omega⟩)))))
          · exact Or.inr (Or.inr (Or.inr (Or.inr (Or.inl ⟨by omega, by omega⟩))))
          · exact Or.inr (Or.inr (Or.inr (Or.inr (Or.inr (Or.inr (Or.inr (⟨by omega, by omega⟩)))))))
          · exact Or.inr (Or.inr (Or.inr (Or.inr (Or.inr (Or.inr (Or.inl ⟨by omega, by omega⟩))))))
      · constructor
        · rintro (⟨h1, h2⟩ | ⟨h1, h2⟩ | ⟨h1, h2⟩ | ⟨h1, h2⟩ | ⟨h1, h2⟩ | ⟨h1, h2⟩ | ⟨h1, h2⟩ | ⟨h1, h2⟩)
          · exact Or.inr (Or.inr (Or.inl ⟨by omega, by omega⟩))
          · exact Or.inr (Or.inr (Or.inr (Or.inl ⟨by omega, by omega⟩)))
          · exact Or.inl ⟨by omega, by omega⟩
          · exact Or.inr (Or.inl ⟨by omega, by omega⟩)
          · exact Or.inr (Or.inr (Or.inr (Or.inr (Or.inr (Or.inr (Or.inl ⟨by omega, by omega⟩))))))
          · exact Or.inr (Or.inr (Or.inr (Or.inr (Or.inr (Or.inr (Or.inr (⟨by omega, by omega⟩)))))))
          · exact Or.inr (Or.inr (Or.inr (Or.inr (Or.inl ⟨by omega, by omega⟩))))
          · exact Or.inr (Or.inr (Or.inr (Or.inr (Or.inr (Or.inl ⟨by omega, by omega⟩)))))
        · rintro (⟨h1, h2⟩ | ⟨h1, h2⟩ | ⟨h1, h2⟩ | ⟨h1, h2⟩ | ⟨h1, h2⟩ | ⟨h1, h2⟩ | ⟨h1, h2⟩ | ⟨h1, h2⟩)
          · exact Or.inr (Or.inr (Or.inl ⟨by omega, by omega⟩))
          · exact Or.inr (Or.inr (Or.inr (Or.inl ⟨by omega, by omega⟩)))
          · exact Or.inl ⟨by omega, by omega⟩
          · exact Or.inr (Or.inl ⟨by omega, by omega⟩)
          · exact Or.inr (Or.inr (Or.inr (Or.inr (Or.inr (Or.inr (Or.inl ⟨by omega, by omega⟩))))))
          · exact Or.inr (Or.inr (Or.inr (Or.inr (Or.inr (Or.inr (Or.inr (⟨by omega, by omega⟩)))))))
          · exact Or.inr (Or.inr (Or.inr (Or.inr (Or.inl ⟨by omega, by omega⟩))))
          · exact Or.inr (Or.inr (Or.inr (Or.inr (Or.inr (Or.inl ⟨by omega, by omega⟩)))))
      · constructor
        · rintro (⟨h1, h2⟩ | ⟨h1, h2⟩ | ⟨h1, h2⟩ | ⟨h1, h2⟩ | ⟨h1, h2⟩ | ⟨h1, h2⟩ | ⟨h1, h2⟩ | ⟨h1, h2⟩)
          · exact Or.inr (Or.inr (Or.inr (Or.inr (Or.inl ⟨by omega, by omega⟩))))
          · exact Or.inr (Or.inr (Or.inr (Or.inr (Or.inr (Or.inr (Or.inl ⟨by omega, by omega⟩))))))
          · exact Or.inr (Or.inr (Or.inr (Or.inr (Or.inr (Or.inl ⟨by omega, by omega⟩)))))
          · exact Or.inr (Or.inr (Or.inr (Or.inr (Or.inr (Or.inr (Or.inr (⟨by omega, by omega⟩)))))))
          · exact Or.inl ⟨by omega, by omega⟩
          · exact Or.inr (Or.inr (Or.inl ⟨by omega, by omega⟩))
          · exact Or.inr (Or.inl ⟨by omega, by omega⟩)
          · exact Or.inr (Or.inr (Or.inr (Or.inl ⟨by omega, by omega⟩)))
        · rintro (⟨h1, h2⟩ | ⟨h1, h2⟩ | ⟨h1, h2⟩ | ⟨h1, h2⟩ | ⟨h1, h2⟩ | ⟨h1, h2⟩ | ⟨h1, h2⟩ | ⟨h1, h2⟩)
          · exact Or.inr (Or.inr (Or.inr (Or.inr (Or.inl ⟨by omega, by omega⟩))))
          · exact Or.inr (Or.inr (Or.inr (Or.inr (Or.inr (Or.inr (Or.inl ⟨by omega, by omega⟩))))))
          · exact Or.inr (Or.inr (Or.inr (Or.inr (Or.inr (Or.inl ⟨by omega, by omega⟩)))))
          · exact Or.inr (Or.inr (Or.inr (Or.inr (Or.inr (Or.inr (Or.inr (⟨by omega, by omega⟩)))))))
          · exact Or.inl ⟨by omega, by omega⟩
          · exact Or.inr (Or.inr (Or.inl ⟨by omega, by omega⟩))
          · exact Or.inr (Or.inl ⟨by omega, by omega⟩)
          · exact Or.inr (Or.inr (Or.inr (Or.inl ⟨by omega, by omega⟩)))
    · rw [if_neg hlt]
      exact hsymd

/-- Claim C9: for a radius `r ≥ 1` and centre `(x0, y0)` such that the
circle of radius `r` lies fully inside `[0,width) × [0,height)`, the set
of pixels set by `draw_circle` on a blank frame is invariant under all
eight reflections about `(x0, y0)`: negating the x-offset, negating the
y-offset, and swapping the two offsets, in every combination. -/
theorem c9_circle_8fold_symmetry (w h x0 y0 r : Int) (hr : 1 ≤ r)
    (h1 : r ≤ x0) (h2 : x0 + r < w) (h3 : r ≤ y0) (h4 : y0 + r < h)
    (a b : Int) :
    (Display.draw_circle (blank_display w h) x0 y0 r false).frame
        (x0 + a) (y0 + b)
      = (Display.draw_circle (blank_display w h) x0 y0 r false).frame
        (x0 - a) (y0 + b) ∧
    (Display.draw_circle (blank_display w h) x0 y0 r false).frame
        (x0 + a) (y0 + b)
      = (Display.draw_circle (blank_display w h) x0 y0 r false).frame
        (x0 + a) (y0 - b) ∧
    (Display.draw_circle (blank_display w h) x0 y0 r false).frame
        (x0 + a) (y0 + b)
      = (Display.draw_circle (blank_display w h) x0 y0 r false).frame
        (x0 - a) (y0 - b) ∧
    (Display.draw_circle (blank_display w h) x0 y0 r false).frame
        (x0 + a) (y0 + b)
      = (Display.draw_circle (blank_display w h) x0 y0 r false).frame
        (x0 + b) (y0 + a) ∧
    (Display.draw_circle (blank_display w h) x0 y0 r false).frame
        (x0 + a) (y0 + b)
      = (Display.draw_circle (blank_display w h) x0 y0 r false).frame
        (x0 - b) (y0 + a) ∧
    (Display.draw_circle (blank_display w h) x0 y0 r false).frame
        (x0 + a) (y0 + b)
      = (Display.draw_circle (blank_display w h) x0 y0 r false).frame
        (x0 + b) (y0 - a) ∧
    (Display.draw_circle (blank_display w h) x0 y0 r false).frame
        (x0 + a) (y0 + b)
      = (Display.draw_circle (blank_display w h) x0 y0 r false).frame
        (x0 - b) (y0 - a) := by
  have hsym : SymAbout x0 y0
      (Display.draw_circle (blank_display w h) x0 y0 r false).frame := by
    unfold Display.draw_circle
    simp only []
    have h4c := frame_after_plot4 (blank_display w h) x0 y0 r
      (by omega) h1 h2 h3 h4
    refine circle_loop_sym x0 y0 r (r - 0).toNat (1 - r) 1 (-r - r) 0 r _
      (by omega) (by omega) (by omega) h1
      (by simp only [width_draw_pixel]; exact h2) h3
      (by simp only [height_draw_pixel]; exact h4) ?_
    refine symAbout_or x0 y0 _ (blank_display w h).frame
      (fun p q => (p = x0 ∧ q = y0 + r) ∨ (p = x0 ∧ q = y0 - r) ∨
        (p = x0 + r ∧ q = y0) ∨ (p = x0 - r ∧ q = y0))
      h4c (symAbout_blank x0 y0 w h) ?_
    intro a b
    refine ⟨?_, ?_, ?_⟩
    · constructor
      · rintro (⟨h1, h2⟩ | ⟨h1, h2⟩ | ⟨h1, h2⟩ | ⟨h1, h2⟩)
        · exact Or.inl ⟨by omega, by omega⟩
        · exact Or.inr (Or.inl ⟨by omega, by omega⟩)
        · exact Or.inr (Or.inr (Or.inr (⟨by omega, by omega⟩)))
        · exact Or.inr (Or.inr (Or.inl ⟨by omega, by omega⟩))
      · rintro (⟨h1, h2⟩ | ⟨h1, h2⟩ | ⟨h1, h2⟩ | ⟨h1, h2⟩)
        · exact Or.inl ⟨by omega, by omega⟩
        · exact Or.inr (Or.inl ⟨by omega, by omega⟩)
        · exact Or.inr (Or.inr (Or.inr (⟨by omega, by omega⟩)))
        · exact Or.inr (Or.inr (Or.inl ⟨by omega, by omega⟩))
    · constructor
      · rintro (⟨h1, h2⟩ | ⟨h1, h2⟩ | ⟨h1, h2⟩ | ⟨h1, h2⟩)
        · exact Or.inr (Or.inl ⟨by omega, by omega⟩)
        · exact Or.inl ⟨by omega, by omega⟩
        · exact Or.inr (Or.inr (Or.inl ⟨by omega, by omega⟩))
        · exact Or.inr (Or.inr (Or.inr (⟨by omega, by omega⟩)))
      · rintro (⟨h1, h2⟩ | ⟨h1, h2⟩ | ⟨h1, h2⟩ | ⟨h1, h2⟩)
        · exact Or.inr (Or.inl ⟨by omega, by omega⟩)
        · exact Or.inl ⟨by omega, by omega⟩
        · exact Or.inr (Or.inr (Or.inl ⟨by omega, by omega⟩))
        · exact Or.inr (Or.inr (Or.inr (⟨by omega, by omega⟩)))
    · constructor
      · rintro (⟨h1, h2⟩ | ⟨h1, h2⟩ | ⟨h1, h2⟩ | ⟨h1, h2⟩)
        · exact Or.inr (Or.inr (Or.inl ⟨by omega, by omega⟩))
        · exact Or.inr (Or.inr (Or.inr (⟨by omega, by omega⟩)))
        · exact Or.inl ⟨by omega, by omega⟩
        · exact Or.inr (Or.inl ⟨by omega, by omega⟩)
      · rintro (⟨h1, h2⟩ | ⟨h1, h2⟩ | ⟨h1, h2⟩ | ⟨h1, h2⟩)
        · exact Or.inr (Or.inr (Or.inl ⟨by omega, by omega⟩))
        · exact Or.inr (Or.inr (Or.inr (⟨by omega, by omega⟩)))
        · exact Or.inl ⟨by omega, by omega⟩
        · exact Or.inr (Or.inl ⟨by omega, by omega⟩)
  obtain ⟨e1, e2, e3⟩ := hsym a b
  have e1h := (hsym (-a) b).2.1
  rw [show x0 + -a = x0 - a from by ring] at e1h
  have e5 := (hsym b a).1
  have e6 := (hsym b a).2.1
  have e7 := (hsym (-b) a).2.1
  rw [show x0 + -b = x0 - b from by ring] at e7
  exact ⟨e1, e2, e1.trans e1h, e3, e3.trans e5, e3.trans e6,
    e3.trans (e5.trans e7)⟩

/-- Witness for C9: a radius-3 circle centred at `(5, 5)` on a blank
16x16 display, checked at the offset `(1, 2)`. -/
theorem c9_circle_8fold_symmetry_witness :
    (Display.draw_circle (blank_display 16 16) 5 5 3 false).frame
        (5 + 1) (5 + 2)
      = (Display.draw_circle (blank_display 16 16) 5 5 3 false).frame
        (5 - 1) (5 + 2) ∧
    (Display.draw_circle (blank_display 16 16) 5 5 3 false).frame
        (5 + 1) (5 + 2)
      = (Display.draw_circle (blank_display 16 16) 5 5 3 false).frame
        (5 + 1) (5 - 2) ∧
    (Display.draw_circle (blank_display 16 16) 5 5 3 false).frame
        (5 + 1) (5 + 2)
      = (Display.draw_circle (blank_display 16 16) 5 5 3 false).frame
        (5 - 1) (5 - 2) ∧
    (Display.draw_circle (blank_display 16 16) 5 5 3 false).frame
        (5 + 1) (5 + 2)
      = (Display.draw_circle (blank_display 16 16) 5 5 3 false).frame
        (5 + 2) (5 + 1) ∧
    (Display.draw_circle (blank_display 16 16) 5 5 3 false).frame
        (5 + 1) (5 + 2)
      = (Display.draw_circle (blank_display 16 16) 5 5 3 false).frame
        (5 - 2) (5 + 1) ∧
    (Display.draw_circle (blank_display 16 16) 5 5 3 false).frame
        (5 + 1) (5 + 2)
      = (Display.draw_circle (blank_display 16 16) 5 5 3 false).frame
        (5 + 2) (5 - 1) ∧
    (Display.draw_circle (blank_display 16 16) 5 5 3 false).frame
        (5 + 1) (5 + 2)
      = (Display.draw_circle (blank_display 16 16) 5 5 3 false).frame
        (5 - 2) (5 - 1) :=
  c9_circle_8fold_symmetry 16 16 5 5 3 (by decide) (by decide) (by decide)
    (by decide) (by decide) 1 2

end ClaimC9
